import Mathlib

/-!
Verification of the treasury-planning demo's core logic, shallowly embedded
from the TypeScript source.  Numeric amounts and rates are modelled with `ℚ`
(the source performs exact decimal-style arithmetic on small values; IEEE
rounding is not modelled).  Calendar dates are modelled as JavaScript `Date`
holds them: a year, a 0-based month, and a 1-based day-of-month, with
`setMonth` day-overflow normalisation.
-/

namespace FundDemo

/-- `Currency` enum from `types.ts` (usage: amount slots HKD/RMB/USD). -/
inductive Currency
  | HKD
  | RMB
  | USD
deriving DecidableEq

/-- `Entity` enum from `types.ts` (usage: PROPERTY and ENTERPRISE divisions). -/
inductive Entity
  | PROPERTY
  | ENTERPRISE
deriving DecidableEq

/-- `TransactionCategory` enum from `types.ts`. -/
inductive TransactionCategory
  | OPERATING
  | FINANCING
  | INVESTING
  | INTERNAL
deriving DecidableEq

/-- `TransactionStatus` enum from `types.ts`. -/
inductive TransactionStatus
  | FORECAST
  | ACTUAL
deriving DecidableEq

/-- `Benchmark` enum from `types.ts` (SHIBOR/HIBOR/SOFR plus a fixed-rate tag
that matches none of the three shocks). -/
inductive Benchmark
  | SHIBOR
  | HIBOR
  | SOFR
  | FIXED
deriving DecidableEq

/-- Debt payment frequency strings used in `App.tsx`. -/
inductive Frequency
  | MONTHLY
  | QUARTERLY
  | SEMI_ANNUALLY
  | ANNUALLY
  | AT_MATURITY
deriving DecidableEq

/-- Debt lifecycle status strings used in `App.tsx`. -/
inductive DebtStatus
  | PLANNED
  | ACTIVE
  | SETTLED
deriving DecidableEq

/-- A calendar date as a JavaScript `Date` stores it: `year`, 0-based
`month` (0 = January) and 1-based `day`.  The source keeps dates as
`YYYY-MM-DD` strings and converts through `new Date(...)`; both views agree
on valid calendar dates. -/
structure JSDate where
  year : Nat
  month : Nat
  day : Nat
deriving DecidableEq

/-- Strictly monotone numeric key for calendar dates (month < 12, day ≤ 31):
orders dates exactly as JavaScript timestamp comparison (`getTime`) does. -/
def JSDate.key (d : JSDate) : Nat :=
  (d.year * 12 + d.month) * 32 + d.day

/-- Gregorian leap-year rule, as JavaScript `Date` normalisation uses it. -/
def isLeapYear (y : Nat) : Bool :=
  (y % 4 == 0 && y % 100 != 0) || y % 400 == 0

/-- Number of days in 0-based month `m` of year `y`. -/
def daysInMonth (y m : Nat) : Nat :=
  if m = 1 then (if isLeapYear y then 29 else 28)
  else if m = 3 || m = 5 || m = 8 || m = 10 then 30
  else 31

/-- `d.setMonth(d.getMonth() + k)` as used by the interest loop in
`App.tsx`: add `k` months, then let a day past the end of the resulting
month overflow into the following month (JavaScript `Date` normalisation;
one carry step suffices for day ≤ 31). -/
def JSDate.addMonths (d : JSDate) (k : Nat) : JSDate :=
  let t := d.month + k
  let y := d.year + t / 12
  let m := t % 12
  let dim := daysInMonth y m
  if dim < d.day then
    if m = 11 then ⟨y + 1, 0, d.day - dim⟩ else ⟨y, m + 1, d.day - dim⟩
  else ⟨y, m, d.day⟩

/-- Zero-padded two-digit rendering of month/day numbers. -/
def pad2 (n : Nat) : String :=
  if n < 10 then "0" ++ toString n else "" ++ toString n

/-- `toISOString().split('T')[0]` of a midnight-UTC date: the `YYYY-MM-DD`
string (years in the data are four digits, so no year padding is needed). -/
def JSDate.iso (d : JSDate) : String :=
  toString d.year ++ "-" ++ pad2 (d.month + 1) ++ "-" ++ pad2 d.day

/-- A cash-flow event (`Transaction` in `types.ts`).  The free-text
`description` field is presentational only (locale strings plus `toFixed`
formatting) and is not modelled. -/
structure Transaction where
  id : String
  date : JSDate
  entity : Entity
  category : TransactionCategory
  amountHKD : ℚ
  amountRMB : ℚ
  amountUSD : ℚ
  status : TransactionStatus
  linkedDebtId : Option String
deriving DecidableEq

/-- A debt instrument (`Debt` in `types.ts`), keeping the fields the debt
engine reads; `name`, `bankName`, `loanType`, `spread`, `guarantor` and
`remarks` only feed description strings and UI labels. -/
structure Debt where
  id : String
  entity : Entity
  currency : Currency
  principal : ℚ
  baseRate : ℚ
  benchmark : Benchmark
  startDate : JSDate
  endDate : JSDate
  frequency : Frequency
  status : DebtStatus
deriving DecidableEq

/-- The simulated FX rate pair (`ExchangeRates` in `types.ts`). -/
structure ExchangeRates where
  hkdToRmb : ℚ
  usdToRmb : ℚ
deriving DecidableEq

/-- The stress parameters held in `App.tsx` state: financing failure rate in
percent and the three benchmark shocks in basis points. -/
structure StressConfig where
  financingFailRate : ℚ
  shiborShock : ℚ
  hiborShock : ℚ
  sofrShock : ℚ
deriving DecidableEq

/-- The three sequential benchmark tests at the top of the interest block of
`debtTransactions` (`stressRateAdd` starts at 0 and is overwritten by the
shock whose benchmark matches). -/
def stressRateAdd (cfg : StressConfig) (b : Benchmark) : ℚ :=
  match b with
  | .SHIBOR => cfg.shiborShock / 100
  | .HIBOR => cfg.hiborShock / 100
  | .SOFR => cfg.sofrShock / 100
  | .FIXED => 0

/-- Frequency-to-months mapping in `debtTransactions` (the variable starts
at 1, so MONTHLY keeps the default). -/
def intervalMonths (f : Frequency) : Nat :=
  match f with
  | .MONTHLY => 1
  | .QUARTERLY => 3
  | .SEMI_ANNUALLY => 6
  | .ANNUALLY => 12
  | .AT_MATURITY => 0

/-- The principal inflow pushed for a PLANNED debt in `debtTransactions`
(section "1. Principal Inflow"). -/
def drawEvent (cfg : StressConfig) (debt : Debt) : Transaction :=
  let failFactor := (100 - cfg.financingFailRate) / 100
  let effectivePrincipal := debt.principal * failFactor
  { id := "princ-in-" ++ debt.id
    date := debt.startDate
    entity := debt.entity
    category := .FINANCING
    amountHKD := if debt.currency = .HKD then effectivePrincipal else 0
    amountRMB := if debt.currency = .RMB then effectivePrincipal else 0
    amountUSD := if debt.currency = .USD then effectivePrincipal else 0
    status := .FORECAST
    linkedDebtId := some debt.id }

/-- One interest event pushed by the while-loop body in `debtTransactions`
(section "2. Interest Payments").  `now` is the injected clock behind
`new Date()`; the loop date `curr` is midnight UTC so `curr > new Date()`
holds exactly when `curr`'s calendar date is strictly after `now`'s.  The
source id appends the full ISO timestamp; its time part is the constant
`T00:00:00.000Z`, so the date part carries all the information. -/
def interestEvent (cfg : StressConfig) (now : JSDate) (debt : Debt)
    (effectiveRate : ℚ) (k : Nat) (curr : JSDate) : Transaction :=
  let interestAmount := -(debt.principal * (effectiveRate / 100) * ((k : ℚ) / 12))
  let principalFactor :=
    if debt.status = .PLANNED then (100 - cfg.financingFailRate) / 100 else 1
  let finalInterest := interestAmount * principalFactor
  { id := "int-" ++ debt.id ++ "-" ++ curr.iso
    date := curr
    entity := debt.entity
    category := .FINANCING
    amountHKD := if debt.currency = .HKD then finalInterest else 0
    amountRMB := if debt.currency = .RMB then finalInterest else 0
    amountUSD := if debt.currency = .USD then finalInterest else 0
    status := if now.key < curr.key then .FORECAST else .ACTUAL
    linkedDebtId := some debt.id }

theorem daysInMonth_le (y m : Nat) : daysInMonth y m ≤ 31 := by
  unfold daysInMonth
  split
  · split <;> omega
  · split <;> omega

theorem key_lt_key_addMonths (d : JSDate) (k : Nat) (hk : 0 < k) :
    d.key < (d.addMonths k).key := by
  unfold JSDate.addMonths JSDate.key
  have hmod : 12 * ((d.month + k) / 12) + (d.month + k) % 12 = d.month + k :=
    Nat.div_add_mod (d.month + k) 12
  have hm : (d.month + k) % 12 < 12 := Nat.mod_lt _ (by omega)
  have hdim := daysInMonth_le (d.year + (d.month + k) / 12) ((d.month + k) % 12)
  simp only
  split
  · split
    · simp only [JSDate.key]
      omega
    · simp only [JSDate.key]
      omega
  · simp only [JSDate.key]
    omega

/-- The `while (curr <= end)` loop of `debtTransactions`, guarded by the
enclosing `if (intervalMonths > 0)`.  Date comparison between `Date`
objects is timestamp comparison, which agrees with `JSDate.key` order on
calendar dates. -/
def interestLoop (cfg : StressConfig) (now : JSDate) (debt : Debt)
    (effectiveRate : ℚ) (k : Nat) (curr : JSDate) : List Transaction :=
  if hk : 0 < k then
    if h : curr.key ≤ debt.endDate.key then
      interestEvent cfg now debt effectiveRate k curr ::
        interestLoop cfg now debt effectiveRate k (curr.addMonths k)
    else []
  else []
termination_by debt.endDate.key + 1 - curr.key
decreasing_by
  have := key_lt_key_addMonths curr k hk
  omega

/-- Section "2. Interest Payments" of `debtTransactions` for one debt. -/
def interestEvents (cfg : StressConfig) (now : JSDate) (debt : Debt) :
    List Transaction :=
  let effectiveRate := debt.baseRate + stressRateAdd cfg debt.benchmark
  let k := intervalMonths debt.frequency
  interestLoop cfg now debt effectiveRate k (debt.startDate.addMonths k)

/-- Section "3. Principal Repayment" of `debtTransactions`. -/
def repaymentEvent (cfg : StressConfig) (debt : Debt) : Transaction :=
  let principalFactor :=
    if debt.status = .PLANNED then (100 - cfg.financingFailRate) / 100 else 1
  { id := "princ-out-" ++ debt.id
    date := debt.endDate
    entity := debt.entity
    category := .FINANCING
    amountHKD := if debt.currency = .HKD then -debt.principal * principalFactor else 0
    amountRMB := if debt.currency = .RMB then -debt.principal * principalFactor else 0
    amountUSD := if debt.currency = .USD then -debt.principal * principalFactor else 0
    status := .FORECAST
    linkedDebtId := some debt.id }

/-- All events `debtTransactions` pushes for one debt, in push order:
conditional draw, then interest, then repayment. -/
def debtEvents (cfg : StressConfig) (now : JSDate) (debt : Debt) :
    List Transaction :=
  (if debt.status = .PLANNED then [drawEvent cfg debt] else []) ++
    interestEvents cfg now debt ++ [repaymentEvent cfg debt]

/-- The `debtTransactions` memo of `App.tsx`: the per-debt event lists
concatenated in debt order. -/
def debtTransactions (cfg : StressConfig) (now : JSDate) (debts : List Debt) :
    List Transaction :=
  debts.flatMap (debtEvents cfg now)

/-! ## Spec-side descriptions (used to compare against the source embedding)

These definitions follow the wording of the specification, not the source,
and exist only so refinement claims can relate the two. -/

/-- Spec wording: the interest dates are obtained by stepping from
`startDate + intervalMonths` in steps of `intervalMonths` while the stepped
date is `≤ endDate`; with a zero interval no dates are produced. -/
def steppedDates (endD : JSDate) (k : Nat) (curr : JSDate) : List JSDate :=
  if hk : 0 < k then
    if h : curr.key ≤ endD.key then
      curr :: steppedDates endD k (curr.addMonths k)
    else []
  else []
termination_by endD.key + 1 - curr.key
decreasing_by
  have := key_lt_key_addMonths curr k hk
  omega

/-- Spec wording: the shock in bps divided by 100 for the shock whose
benchmark matches the instrument's benchmark, and 0 otherwise. -/
def specStressAdd (cfg : StressConfig) (debt : Debt) : ℚ :=
  if debt.benchmark = .SHIBOR then cfg.shiborShock / 100
  else if debt.benchmark = .HIBOR then cfg.hiborShock / 100
  else if debt.benchmark = .SOFR then cfg.sofrShock / 100
  else 0

/-- Spec wording: `effectiveRate = baseRate` plus the matching shock. -/
def specEffectiveRate (cfg : StressConfig) (debt : Debt) : ℚ :=
  debt.baseRate + specStressAdd cfg debt

/-- Spec wording: the principal factor is `(1 - financingFailRate/100)` if
the debt is PLANNED, else `1`. -/
def specPrincipalFactor (cfg : StressConfig) (debt : Debt) : ℚ :=
  if debt.status = .PLANNED then 1 - cfg.financingFailRate / 100 else 1

/-- Spec wording: each interest amount is
`-(principal * (effectiveRate/100) * (intervalMonths/12))` multiplied by
the principal factor. -/
def specInterestAmount (cfg : StressConfig) (debt : Debt) (k : Nat) : ℚ :=
  -(debt.principal * (specEffectiveRate cfg debt / 100) * ((k : ℚ) / 12)) *
    specPrincipalFactor cfg debt

/-- The interest event the spec describes for one stepped date. -/
def specMkInterest (cfg : StressConfig) (now : JSDate) (debt : Debt) (k : Nat)
    (dt : JSDate) : Transaction :=
  { id := "int-" ++ debt.id ++ "-" ++ dt.iso
    date := dt
    entity := debt.entity
    category := .FINANCING
    amountHKD := if debt.currency = .HKD then specInterestAmount cfg debt k else 0
    amountRMB := if debt.currency = .RMB then specInterestAmount cfg debt k else 0
    amountUSD := if debt.currency = .USD then specInterestAmount cfg debt k else 0
    status := if now.key < dt.key then .FORECAST else .ACTUAL
    linkedDebtId := some debt.id }

/-- The interest schedule the spec describes: one event per stepped date. -/
def specInterestEvents (cfg : StressConfig) (now : JSDate) (debt : Debt) :
    List Transaction :=
  (steppedDates debt.endDate (intervalMonths debt.frequency)
      (debt.startDate.addMonths (intervalMonths debt.frequency))).map
    (specMkInterest cfg now debt (intervalMonths debt.frequency))

/-- The draw event the spec describes: dated at `startDate`, category
FINANCING, status FORECAST, amount `principal * (1 - financingFailRate/100)`
in the instrument's currency slot. -/
def specDrawEvent (cfg : StressConfig) (debt : Debt) : Transaction :=
  { id := "princ-in-" ++ debt.id
    date := debt.startDate
    entity := debt.entity
    category := .FINANCING
    amountHKD := if debt.currency = .HKD then
      debt.principal * (1 - cfg.financingFailRate / 100) else 0
    amountRMB := if debt.currency = .RMB then
      debt.principal * (1 - cfg.financingFailRate / 100) else 0
    amountUSD := if debt.currency = .USD then
      debt.principal * (1 - cfg.financingFailRate / 100) else 0
    status := .FORECAST
    linkedDebtId := some debt.id }

/-- The repayment event the spec describes: dated at `endDate`, category
FINANCING, amount `-principal` times the principal factor, always
FORECAST. -/
def specRepaymentEvent (cfg : StressConfig) (debt : Debt) : Transaction :=
  { id := "princ-out-" ++ debt.id
    date := debt.endDate
    entity := debt.entity
    category := .FINANCING
    amountHKD := if debt.currency = .HKD then
      -debt.principal * specPrincipalFactor cfg debt else 0
    amountRMB := if debt.currency = .RMB then
      -debt.principal * specPrincipalFactor cfg debt else 0
    amountUSD := if debt.currency = .USD then
      -debt.principal * specPrincipalFactor cfg debt else 0
    status := .FORECAST
    linkedDebtId := some debt.id }

/-! ## Currency converter, ledger merge and aggregation -/

/-- The conversion helper repeated in `FundCalendar.tsx` (`convert`),
`FinancialTable.tsx` (`getTotalInBase`) and `Dashboard.tsx`
(`convertToBase`): everything goes through an RMB-denominated intermediate
value which is divided back for an HKD or USD base. -/
def convert (rates : ExchangeRates) (base : Currency) (hkd rmb usd : ℚ) : ℚ :=
  let valInRMB := hkd * rates.hkdToRmb + rmb + usd * rates.usdToRmb
  match base with
  | .RMB => valInRMB
  | .HKD => valInRMB / rates.hkdToRmb
  | .USD => valInRMB / rates.usdToRmb

/-- Converted value of one transaction's amount triple. -/
def convertT (rates : ExchangeRates) (base : Currency) (t : Transaction) : ℚ :=
  convert rates base t.amountHKD t.amountRMB t.amountUSD

/-- The comparator `(a, b) => new Date(a.date).getTime() - new Date(b.date).getTime()`:
non-positive exactly when `a`'s date key is at most `b`'s.  JavaScript
`Array.prototype.sort` is a stable sort (ES2019), modelled by `mergeSort`. -/
def dateLeb (a b : Transaction) : Bool :=
  decide (a.date.key ≤ b.date.key)

/-- The `allTransactions` memo of `App.tsx`: manual entries concatenated
with the generated schedule, stably sorted by date. -/
def allTransactions (manual generated : List Transaction) : List Transaction :=
  (manual ++ generated).mergeSort dateLeb

/-- Per-entity opening balance triple (`INITIAL_BALANCES` entries). -/
structure BalanceTriple where
  hkd : ℚ
  rmb : ℚ
  usd : ℚ
deriving DecidableEq

/-- `Record<Entity, {HKD, RMB, USD}>` of starting balances. -/
def StartBalances : Type :=
  Entity → BalanceTriple

/-- Converted starting balance of one entity, as `FinancialTable.tsx`
computes `startBase` in the single-entity branch. -/
def entityStartBase (rates : ExchangeRates) (base : Currency)
    (sb : StartBalances) (e : Entity) : ℚ :=
  convert rates base (sb e).hkd (sb e).rmb (sb e).usd

/-- The `processed` list of `FinancialTable.tsx` under a single-entity
filter: filter to the entity, then sort by date. -/
def processedFor (e : Entity) (ts : List Transaction) : List Transaction :=
  (ts.filter (fun t => decide (t.entity = e))).mergeSort dateLeb

/-- The final value of `currentRunningBal` after the `processed.forEach`
loop of `FinancialTable.tsx` (every processed event adds its converted
total to the running balance; the month bookkeeping does not feed back
into it). -/
def finalRunningBal (rates : ExchangeRates) (base : Currency)
    (sb : StartBalances) (e : Entity) (ts : List Transaction) : ℚ :=
  (processedFor e ts).foldl (fun acc t => acc + convertT rates base t)
    (entityStartBase rates base sb e)

/-- `dailyNet` for one calendar cell in `FundCalendar.tsx` (`calendarGrid`):
the day's transactions accumulate their converted totals, skipping
INTERNAL-category events. -/
def dailyNet (rates : ExchangeRates) (base : Currency)
    (ts : List Transaction) (d : JSDate) : ℚ :=
  (ts.filter (fun t => decide (t.date = d))).foldl
    (fun acc t =>
      if t.category = .INTERNAL then acc else acc + convertT rates base t) 0

/-- The `YYYY-MM` bucket of a date (`t.date.substring(0, 7)`), encoded as a
month index. -/
def monthKey (d : JSDate) : Nat :=
  d.year * 12 + d.month

/-- The date-sorted transaction stream `sortedTrans` of `Dashboard.tsx`. -/
def sortedByDate (ts : List Transaction) : List Transaction :=
  ts.mergeSort dateLeb

/-- The `net` figure accumulated for one month bucket by `chartData` in
`Dashboard.tsx` (combined-entities view): non-INTERNAL events of that
month add their converted value. -/
def monthlyNet (rates : ExchangeRates) (base : Currency)
    (ts : List Transaction) (m : Nat) : ℚ :=
  ((sortedByDate ts).filter
      (fun t => decide (monthKey t.date = m) && !decide (t.category = .INTERNAL))).foldl
    (fun acc t => acc + convertT rates base t) 0

/-- The `inflow` figure for one month bucket of `chartData`: positive
converted values accumulate. -/
def monthlyInflow (rates : ExchangeRates) (base : Currency)
    (ts : List Transaction) (m : Nat) : ℚ :=
  ((sortedByDate ts).filter
      (fun t => decide (monthKey t.date = m) && !decide (t.category = .INTERNAL))).foldl
    (fun acc t =>
      if 0 < convertT rates base t then acc + convertT rates base t else acc) 0

/-- The `outflow` figure for one month bucket of `chartData`: non-positive
converted values accumulate in absolute value. -/
def monthlyOutflow (rates : ExchangeRates) (base : Currency)
    (ts : List Transaction) (m : Nat) : ℚ :=
  ((sortedByDate ts).filter
      (fun t => decide (monthKey t.date = m) && !decide (t.category = .INTERNAL))).foldl
    (fun acc t =>
      if 0 < convertT rates base t then acc else acc + |convertT rates base t|) 0

/-- Transaction with its status normalised away, to state which outputs may
depend on the injected clock. -/
def eraseStatus (t : Transaction) : Transaction :=
  { t with status := .FORECAST }

/-! ## Shared lemmas -/

theorem interestLoop_eq_map (cfg : StressConfig) (now : JSDate) (debt : Debt)
    (er : ℚ) (k : Nat) (curr : JSDate) :
    interestLoop cfg now debt er k curr =
      (steppedDates debt.endDate k curr).map (interestEvent cfg now debt er k) := by
  induction curr using interestLoop.induct cfg now debt er k with
  | case1 c hk h ih => rw [interestLoop, steppedDates]; simp [hk, h, ih]
  | case2 c hk h => rw [interestLoop, steppedDates]; simp [hk, h]
  | case3 c hk => rw [interestLoop, steppedDates]; simp [hk]

theorem interestEvents_eq_map (cfg : StressConfig) (now : JSDate) (debt : Debt) :
    interestEvents cfg now debt =
      (steppedDates debt.endDate (intervalMonths debt.frequency)
          (debt.startDate.addMonths (intervalMonths debt.frequency))).map
        (interestEvent cfg now debt
          (debt.baseRate + stressRateAdd cfg debt.benchmark)
          (intervalMonths debt.frequency)) := by
  unfold interestEvents
  exact interestLoop_eq_map ..

theorem specEffectiveRate_eq (cfg : StressConfig) (debt : Debt) :
    specEffectiveRate cfg debt = debt.baseRate + stressRateAdd cfg debt.benchmark := by
  unfold specEffectiveRate specStressAdd stressRateAdd
  cases debt.benchmark <;> simp

theorem specPrincipalFactor_eq (cfg : StressConfig) (debt : Debt) :
    specPrincipalFactor cfg debt =
      (if debt.status = .PLANNED then (100 - cfg.financingFailRate) / 100 else 1) := by
  unfold specPrincipalFactor
  cases debt.status <;> simp
  ring

theorem interestEvent_eq_specMk (cfg : StressConfig) (now : JSDate) (debt : Debt)
    (k : Nat) (dt : JSDate) :
    interestEvent cfg now debt (debt.baseRate + stressRateAdd cfg debt.benchmark) k dt =
      specMkInterest cfg now debt k dt := by
  unfold interestEvent specMkInterest specInterestAmount
  rw [specEffectiveRate_eq, specPrincipalFactor_eq]

theorem interestEvents_eq_spec (cfg : StressConfig) (now : JSDate) (debt : Debt) :
    interestEvents cfg now debt = specInterestEvents cfg now debt := by
  rw [interestEvents_eq_map]
  unfold specInterestEvents
  have hfun : interestEvent cfg now debt
      (debt.baseRate + stressRateAdd cfg debt.benchmark)
      (intervalMonths debt.frequency) =
      specMkInterest cfg now debt (intervalMonths debt.frequency) :=
    funext (interestEvent_eq_specMk cfg now debt (intervalMonths debt.frequency))
  rw [hfun]

theorem repaymentEvent_eq_spec (cfg : StressConfig) (debt : Debt) :
    repaymentEvent cfg debt = specRepaymentEvent cfg debt := by
  unfold repaymentEvent specRepaymentEvent
  rw [specPrincipalFactor_eq]

theorem drawEvent_eq_spec (cfg : StressConfig) (debt : Debt) :
    drawEvent cfg debt = specDrawEvent cfg debt := by
  unfold drawEvent specDrawEvent
  rw [show ((100 - cfg.financingFailRate) / 100 : ℚ) =
      1 - cfg.financingFailRate / 100 from by ring]

theorem princ_out_ne_princ_in (s t : String) :
    "princ-out-" ++ s ≠ "princ-in-" ++ t := by
  intro h
  have h2 := congrArg String.data h
  rw [String.data_append, String.data_append] at h2
  have e1 : ("princ-out-" : String).data
      = ['p', 'r', 'i', 'n', 'c', '-', 'o', 'u', 't', '-'] := rfl
  have e2 : ("princ-in-" : String).data
      = ['p', 'r', 'i', 'n', 'c', '-', 'i', 'n', '-'] := rfl
  rw [e1, e2] at h2
  simp at h2

theorem int_id_ne_princ_in (s r t : String) :
    "int-" ++ s ++ "-" ++ r ≠ "princ-in-" ++ t := by
  intro h
  have h2 := congrArg String.data h
  rw [String.data_append, String.data_append, String.data_append,
    String.data_append] at h2
  have e1 : ("int-" : String).data = ['i', 'n', 't', '-'] := rfl
  have e2 : ("princ-in-" : String).data
      = ['p', 'r', 'i', 'n', 'c', '-', 'i', 'n', '-'] := rfl
  rw [e1, e2] at h2
  simp at h2

theorem int_id_ne_princ_out (s r t : String) :
    "int-" ++ s ++ "-" ++ r ≠ "princ-out-" ++ t := by
  intro h
  have h2 := congrArg String.data h
  rw [String.data_append, String.data_append, String.data_append,
    String.data_append] at h2
  have e1 : ("int-" : String).data = ['i', 'n', 't', '-'] := rfl
  have e2 : ("princ-out-" : String).data
      = ['p', 'r', 'i', 'n', 'c', '-', 'o', 'u', 't', '-'] := rfl
  rw [e1, e2] at h2
  simp at h2

theorem foldl_add_eq_sum (f : Transaction → ℚ) (l : List Transaction) (a : ℚ) :
    l.foldl (fun acc t => acc + f t) a = a + (l.map f).sum := by
  induction l generalizing a with
  | nil => simp
  | cons x xs ih => simp [List.foldl_cons, ih, add_assoc]

theorem foldl_if_pos_eq_sum (c : Transaction → Prop) [DecidablePred c]
    (f : Transaction → ℚ) (l : List Transaction) (a : ℚ) :
    l.foldl (fun acc t => if c t then acc + f t else acc) a =
      a + (l.map (fun t => if c t then f t else 0)).sum := by
  induction l generalizing a with
  | nil => simp
  | cons x xs ih =>
    by_cases h : c x <;> simp [List.foldl_cons, ih, h, add_assoc]

theorem foldl_if_neg_eq_sum (c : Transaction → Prop) [DecidablePred c]
    (f : Transaction → ℚ) (l : List Transaction) (a : ℚ) :
    l.foldl (fun acc t => if c t then acc else acc + f t) a =
      a + (l.map (fun t => if c t then 0 else f t)).sum := by
  induction l generalizing a with
  | nil => simp
  | cons x xs ih =>
    by_cases h : c x <;> simp [List.foldl_cons, ih, h, add_assoc]

theorem sum_map_mergeSort (f : Transaction → ℚ) (le : Transaction → Transaction → Bool)
    (l : List Transaction) :
    ((l.mergeSort le).map f).sum = (l.map f).sum :=
  ((List.mergeSort_perm l le).map f).sum_eq

theorem finalRunningBal_eq_sum (rates : ExchangeRates) (base : Currency)
    (sb : StartBalances) (e : Entity) (ts : List Transaction) :
    finalRunningBal rates base sb e ts =
      entityStartBase rates base sb e +
        ((ts.filter (fun t => decide (t.entity = e))).map (convertT rates base)).sum := by
  unfold finalRunningBal processedFor
  rw [foldl_add_eq_sum, sum_map_mergeSort]

theorem sum_map_filter_mergeSort (f : Transaction → ℚ) (p : Transaction → Bool)
    (le : Transaction → Transaction → Bool) (l : List Transaction) :
    (((l.mergeSort le).filter p).map f).sum = ((l.filter p).map f).sum :=
  (((List.mergeSort_perm l le).filter p).map f).sum_eq

theorem stressRateAdd_indep_failRate (cfg : StressConfig) (r : ℚ) (b : Benchmark) :
    stressRateAdd { cfg with financingFailRate := r } b = stressRateAdd cfg b := by
  cases b <;> rfl

theorem dateLeb_trans (a b c : Transaction) :
    dateLeb a b → dateLeb b c → dateLeb a c := by
  simp only [dateLeb, decide_eq_true_eq]
  omega

theorem dateLeb_total (a b : Transaction) : dateLeb a b || dateLeb b a := by
  simp only [dateLeb, Bool.or_eq_true, decide_eq_true_eq]
  omega

/-! ## Claim theorems -/

/-- C9: for all amounts and positive rates, the currency converter returns
the RMB-denominated value `v = hkd*rateHKDtoRMB + rmb + usd*rateUSDtoRMB`
when the base currency is RMB, `v / rateHKDtoRMB` when it is HKD, and
`v / rateUSDtoRMB` when it is USD, with no error cases. -/
theorem converter_follows_spec (rates : ExchangeRates) (h r u : ℚ)
    (hH : 0 < rates.hkdToRmb) (hU : 0 < rates.usdToRmb) :
    convert rates .RMB h r u = h * rates.hkdToRmb + r + u * rates.usdToRmb ∧
    convert rates .HKD h r u =
      (h * rates.hkdToRmb + r + u * rates.usdToRmb) / rates.hkdToRmb ∧
    convert rates .USD h r u =
      (h * rates.hkdToRmb + r + u * rates.usdToRmb) / rates.usdToRmb :=
  ⟨rfl, rfl, rfl⟩

theorem converter_follows_spec_witness :
    (0 : ℚ) < (92 / 100 : ℚ) ∧
    convert ⟨92 / 100, 723 / 100⟩ .RMB 1 2 3 =
      1 * (92 / 100) + 2 + 3 * (723 / 100) :=
  ⟨by norm_num,
    (converter_follows_spec ⟨92 / 100, 723 / 100⟩ 1 2 3 (by norm_num) (by norm_num)).1⟩

/-- C6: for any single-entity view, the running balance after processing
the full date-sorted stream equals the converted starting balance of that
entity plus the sum of base-currency-converted amounts of every event of
that entity (INTERNAL events included; nothing double-counted or
skipped). -/
theorem running_balance_exact (rates : ExchangeRates) (base : Currency)
    (sb : StartBalances) (e : Entity) (ts : List Transaction) :
    finalRunningBal rates base sb e ts =
      entityStartBase rates base sb e +
        ((ts.filter (fun t => decide (t.entity = e))).map (convertT rates base)).sum :=
  finalRunningBal_eq_sum rates base sb e ts

/-- C5: merging manual and generated events concatenates the lists and
sorts ascending by date; the output is a permutation of the concatenation
(no event modified), and events sharing a date keep their concatenation
order (stable tie-breaking). -/
theorem merge_is_stable_date_sort (manual generated : List Transaction) :
    (allTransactions manual generated).Perm (manual ++ generated) ∧
    List.Pairwise (fun a b => a.date.key ≤ b.date.key)
      (allTransactions manual generated) ∧
    ∀ a b : Transaction, a.date.key = b.date.key →
      [a, b].Sublist (manual ++ generated) →
      [a, b].Sublist (allTransactions manual generated) := by
  unfold allTransactions
  refine ⟨List.mergeSort_perm _ _, ?_, ?_⟩
  · exact (List.sorted_mergeSort dateLeb_trans dateLeb_total (manual ++ generated)).imp
      (fun hab => by simpa [dateLeb] using hab)
  · intro a b hab hsub
    exact List.pair_sublist_mergeSort dateLeb_trans dateLeb_total
      (by simp [dateLeb, hab]) hsub

/-- First of two same-dated manual events used by the merge witness. -/
def tSameA : Transaction :=
  ⟨"m1", ⟨2024, 0, 5⟩, .PROPERTY, .OPERATING, 1, 0, 0, .FORECAST, none⟩

/-- Second of two same-dated manual events used by the merge witness. -/
def tSameB : Transaction :=
  ⟨"m2", ⟨2024, 0, 5⟩, .ENTERPRISE, .OPERATING, 0, 2, 0, .FORECAST, none⟩

theorem merge_is_stable_date_sort_witness :
    [tSameA, tSameB].Sublist (allTransactions [tSameA, tSameB] []) :=
  (merge_is_stable_date_sort [tSameA, tSameB] []).2.2 tSameA tSameB rfl
    (by simp)

/-- C1: interest events are exactly one per date obtained by stepping from
`startDate + intervalMonths` in steps of `intervalMonths` while the stepped
date is `≤ endDate`, with amount
`-(principal * (effectiveRate/100) * (intervalMonths/12))` times the
principal factor, where the effective rate adds the matching benchmark
shock (in bps over 100) to the base rate; AT_MATURITY debts produce no
interest events. -/
theorem interest_schedule_follows_spec (cfg : StressConfig) (now : JSDate)
    (debt : Debt) :
    interestEvents cfg now debt = specInterestEvents cfg now debt ∧
    (debt.frequency = .AT_MATURITY → interestEvents cfg now debt = []) := by
  refine ⟨interestEvents_eq_spec cfg now debt, ?_⟩
  intro hf
  rw [interestEvents_eq_map, hf]
  rw [show intervalMonths .AT_MATURITY = 0 from rfl, steppedDates]
  simp

/-- Stress configuration used by concrete witnesses. -/
def cfgW : StressConfig :=
  ⟨20, 10, 20, 30⟩

/-- Zero-stress configuration used by concrete witnesses. -/
def cfgZ : StressConfig :=
  ⟨0, 0, 0, 0⟩

/-- Clock used by concrete witnesses (2024-06-15). -/
def nowW : JSDate :=
  ⟨2024, 5, 15⟩

/-- Late clock used by concrete witnesses (2025-01-01). -/
def nowLate : JSDate :=
  ⟨2025, 0, 1⟩

/-- An at-maturity ACTIVE instrument used by concrete witnesses. -/
def debtMat : Debt :=
  ⟨"dm", .ENTERPRISE, .USD, 7, 3, .SOFR, ⟨2024, 0, 1⟩, ⟨2026, 0, 1⟩,
    .AT_MATURITY, .ACTIVE⟩

/-- The spec's worked example: a PLANNED quarterly RMB debt over
2024-01-01 .. 2024-07-01. -/
def debtQ : Debt :=
  ⟨"dq", .PROPERTY, .RMB, 10, 4, .SHIBOR, ⟨2024, 0, 1⟩, ⟨2024, 6, 1⟩,
    .QUARTERLY, .PLANNED⟩

theorem interest_schedule_follows_spec_witness :
    interestEvents cfgW nowW debtMat = [] :=
  (interest_schedule_follows_spec cfgW nowW debtMat).2 rfl

/-- C2: a draw event is emitted exactly for PLANNED instruments, dated at
`startDate`, category FINANCING, status FORECAST, with amount
`principal * (1 - financingFailRate/100)` in the instrument's currency
slot; for non-PLANNED instruments no draw event appears and the whole
schedule is independent of the financing failure rate. -/
theorem draw_event_follows_spec (cfg : StressConfig) (now : JSDate) (debt : Debt) :
    (debt.status = .PLANNED →
      debtEvents cfg now debt =
        specDrawEvent cfg debt ::
          (interestEvents cfg now debt ++ [repaymentEvent cfg debt])) ∧
    (debt.status ≠ .PLANNED →
      debtEvents cfg now debt =
        interestEvents cfg now debt ++ [repaymentEvent cfg debt] ∧
      (∀ e ∈ debtEvents cfg now debt, e.id ≠ "princ-in-" ++ debt.id) ∧
      ∀ r : ℚ,
        debtEvents { cfg with financingFailRate := r } now debt =
          debtEvents cfg now debt) := by
  constructor
  · intro h
    unfold debtEvents
    rw [if_pos h, drawEvent_eq_spec]
    simp
  · intro h
    refine ⟨?_, ?_, ?_⟩
    · unfold debtEvents
      rw [if_neg h]
      simp
    · intro e he
      unfold debtEvents at he
      rw [if_neg h] at he
      simp only [List.nil_append, List.mem_append, List.mem_singleton] at he
      rcases he with he | he
      · rw [interestEvents_eq_map] at he
        obtain ⟨dt, _, rfl⟩ := List.mem_map.mp he
        exact int_id_ne_princ_in debt.id dt.iso debt.id
      · rw [he]
        exact princ_out_ne_princ_in debt.id debt.id
    · intro r
      unfold debtEvents
      rw [if_neg h, if_neg h]
      congr 1
      congr 1
      · rw [interestEvents_eq_map, interestEvents_eq_map,
          stressRateAdd_indep_failRate]
        have hev : interestEvent { cfg with financingFailRate := r } now debt
            (debt.baseRate + stressRateAdd cfg debt.benchmark)
            (intervalMonths debt.frequency) =
            interestEvent cfg now debt
              (debt.baseRate + stressRateAdd cfg debt.benchmark)
              (intervalMonths debt.frequency) := by
          funext dt
          simp [interestEvent, h]
        rw [hev]
      · simp [repaymentEvent, h]

theorem draw_event_follows_spec_witness :
    debtEvents cfgW nowW debtQ =
      specDrawEvent cfgW debtQ ::
        (interestEvents cfgW nowW debtQ ++ [repaymentEvent cfgW debtQ]) :=
  (draw_event_follows_spec cfgW nowW debtQ).1 rfl

/-- C3: every debt yields exactly one repayment event, dated at `endDate`,
category FINANCING, amount `-principal` times the principal factor, and its
status is FORECAST for every value of the injected clock — whereas interest
events dated on or before the clock get status ACTUAL. -/
theorem repayment_event_follows_spec (cfg : StressConfig) (now : JSDate)
    (debt : Debt) :
    (debtEvents cfg now debt).filter
        (fun e => decide (e.id = "princ-out-" ++ debt.id)) =
      [specRepaymentEvent cfg debt] ∧
    ∀ e ∈ interestEvents cfg now debt,
      e.date.key ≤ now.key → e.status = .ACTUAL := by
  constructor
  · unfold debtEvents
    rw [List.filter_append, List.filter_append]
    have hdraw : (if debt.status = .PLANNED then [drawEvent cfg debt] else []).filter
        (fun e => decide (e.id = "princ-out-" ++ debt.id)) = [] := by
      split
      · simp [drawEvent, (princ_out_ne_princ_in debt.id debt.id).symm]
      · simp
    have hint : (interestEvents cfg now debt).filter
        (fun e => decide (e.id = "princ-out-" ++ debt.id)) = [] := by
      rw [List.filter_eq_nil_iff]
      intro e he
      rw [interestEvents_eq_map] at he
      obtain ⟨dt, _, rfl⟩ := List.mem_map.mp he
      simpa [interestEvent] using int_id_ne_princ_out debt.id dt.iso debt.id
    rw [hdraw, hint]
    simp [repaymentEvent_eq_spec, specRepaymentEvent]
  · intro e he hle
    rw [interestEvents_eq_map] at he
    obtain ⟨dt, _, rfl⟩ := List.mem_map.mp he
    simp only [interestEvent] at hle ⊢
    rw [if_neg (by omega)]

theorem repayment_event_follows_spec_witness :
    ((debtEvents cfgZ nowLate debtQ).filter
        (fun e => decide (e.id = "princ-out-" ++ debtQ.id)) =
      [specRepaymentEvent cfgZ debtQ]) ∧
    (interestEvent cfgZ nowLate debtQ
        (debtQ.baseRate + stressRateAdd cfgZ debtQ.benchmark)
        (intervalMonths debtQ.frequency) ⟨2024, 3, 1⟩).status = .ACTUAL := by
  refine ⟨(repayment_event_follows_spec cfgZ nowLate debtQ).1, ?_⟩
  refine (repayment_event_follows_spec cfgZ nowLate debtQ).2 _ ?_ (by decide)
  rw [interestEvents_eq_map]
  refine List.mem_map_of_mem _ ?_
  simp [steppedDates, JSDate.addMonths, JSDate.key, daysInMonth, isLeapYear,
    debtQ, intervalMonths]

/-- C4: the generator is a pure function of (debts, stress, injected
clock); its output for two clock values differs at most in the
FORECAST/ACTUAL status split, and every generated id is derivable from the
debt id, the event type and the event date. -/
theorem generator_deterministic (cfg : StressConfig) (debts : List Debt)
    (nowA nowB : JSDate) :
    (debtTransactions cfg nowA debts).map eraseStatus =
      (debtTransactions cfg nowB debts).map eraseStatus ∧
    ∀ e ∈ debtTransactions cfg nowA debts, ∃ d ∈ debts,
      e.linkedDebtId = some d.id ∧
      (e.id = "princ-in-" ++ d.id ∧ e.date = d.startDate ∨
       e.id = "princ-out-" ++ d.id ∧ e.date = d.endDate ∨
       e.id = "int-" ++ d.id ++ "-" ++ e.date.iso) := by
  constructor
  · unfold debtTransactions
    rw [List.map_flatMap, List.map_flatMap]
    have hper : (fun d => (debtEvents cfg nowA d).map eraseStatus) =
        (fun d => (debtEvents cfg nowB d).map eraseStatus) := by
      funext d
      unfold debtEvents
      rw [List.map_append, List.map_append, List.map_append, List.map_append]
      congr 1
      congr 1
      · rw [interestEvents_eq_map, interestEvents_eq_map,
          List.map_map, List.map_map]
        have hco : eraseStatus ∘ interestEvent cfg nowA d
            (d.baseRate + stressRateAdd cfg d.benchmark)
            (intervalMonths d.frequency) =
            eraseStatus ∘ interestEvent cfg nowB d
              (d.baseRate + stressRateAdd cfg d.benchmark)
              (intervalMonths d.frequency) := by
          funext dt
          simp [eraseStatus, interestEvent]
        rw [hco]
    rw [hper]
  · intro e he
    unfold debtTransactions at he
    obtain ⟨d, hd, hde⟩ := List.mem_flatMap.mp he
    refine ⟨d, hd, ?_⟩
    unfold debtEvents at hde
    simp only [List.mem_append] at hde
    rcases hde with (hdraw | hint) | hrep
    · have he2 : e = drawEvent cfg d := by
        revert hdraw
        split
        · simp only [List.mem_singleton]
          exact id
        · simp
      subst he2
      exact ⟨rfl, Or.inl ⟨rfl, rfl⟩⟩
    · rw [interestEvents_eq_map] at hint
      obtain ⟨dt, _, rfl⟩ := List.mem_map.mp hint
      exact ⟨rfl, Or.inr (Or.inr rfl)⟩
    · have he2 : e = repaymentEvent cfg d := by simpa using hrep
      subst he2
      exact ⟨rfl, Or.inr (Or.inl ⟨rfl, rfl⟩)⟩

theorem generator_deterministic_witness :
    ∃ d ∈ [debtMat], (repaymentEvent cfgW debtMat).linkedDebtId = some d.id ∧
      ((repaymentEvent cfgW debtMat).id = "princ-in-" ++ d.id ∧
          (repaymentEvent cfgW debtMat).date = d.startDate ∨
       (repaymentEvent cfgW debtMat).id = "princ-out-" ++ d.id ∧
          (repaymentEvent cfgW debtMat).date = d.endDate ∨
       (repaymentEvent cfgW debtMat).id =
          "int-" ++ d.id ++ "-" ++ (repaymentEvent cfgW debtMat).date.iso) :=
  (generator_deterministic cfgW [debtMat] nowW nowLate).2
    (repaymentEvent cfgW debtMat)
    (by simp [debtTransactions, debtEvents, interestEvents, interestLoop,
      debtMat, intervalMonths])

/-- C10: every generated event has category FINANCING, a back-reference to
its debt, the debt's entity, and zero amounts outside the debt's
denomination currency slot. -/
theorem generated_event_invariants (cfg : StressConfig) (now : JSDate)
    (debts : List Debt) :
    ∀ e ∈ debtTransactions cfg now debts, ∃ d ∈ debts,
      e.category = .FINANCING ∧ e.linkedDebtId = some d.id ∧
      e.entity = d.entity ∧
      (d.currency = .HKD → e.amountRMB = 0 ∧ e.amountUSD = 0) ∧
      (d.currency = .RMB → e.amountHKD = 0 ∧ e.amountUSD = 0) ∧
      (d.currency = .USD → e.amountHKD = 0 ∧ e.amountRMB = 0) := by
  intro e he
  obtain ⟨d, hd, hde⟩ := List.mem_flatMap.mp he
  refine ⟨d, hd, ?_⟩
  unfold debtEvents at hde
  simp only [List.mem_append] at hde
  rcases hde with (hdraw | hint) | hrep
  · have he2 : e = drawEvent cfg d := by
      revert hdraw
      split
      · simp only [List.mem_singleton]
        exact id
      · simp
    subst he2
    refine ⟨rfl, rfl, rfl, ?_, ?_, ?_⟩ <;> intro hc <;> simp [drawEvent, hc]
  · rw [interestEvents_eq_map] at hint
    obtain ⟨dt, _, rfl⟩ := List.mem_map.mp hint
    refine ⟨rfl, rfl, rfl, ?_, ?_, ?_⟩ <;> intro hc <;> simp [interestEvent, hc]
  · have he2 : e = repaymentEvent cfg d := by simpa using hrep
    subst he2
    refine ⟨rfl, rfl, rfl, ?_, ?_, ?_⟩ <;> intro hc <;> simp [repaymentEvent, hc]

theorem generated_event_invariants_witness :
    ∃ d ∈ [debtMat], (repaymentEvent cfgW debtMat).category = .FINANCING ∧
      (repaymentEvent cfgW debtMat).linkedDebtId = some d.id ∧
      (repaymentEvent cfgW debtMat).entity = d.entity ∧
      (d.currency = .HKD → (repaymentEvent cfgW debtMat).amountRMB = 0 ∧
        (repaymentEvent cfgW debtMat).amountUSD = 0) ∧
      (d.currency = .RMB → (repaymentEvent cfgW debtMat).amountHKD = 0 ∧
        (repaymentEvent cfgW debtMat).amountUSD = 0) ∧
      (d.currency = .USD → (repaymentEvent cfgW debtMat).amountHKD = 0 ∧
        (repaymentEvent cfgW debtMat).amountRMB = 0) :=
  generated_event_invariants cfgW nowW [debtMat]
    (repaymentEvent cfgW debtMat)
    (by simp [debtTransactions, debtEvents, interestEvents, interestLoop,
      debtMat, intervalMonths])

/-- C7: INTERNAL-category events contribute nothing to the calendar's daily
net flow nor to the monthly inflow/outflow/net aggregates, but they do move
the per-entity running balance by their converted amount. -/
theorem internal_flow_exclusion (rates : ExchangeRates) (base : Currency)
    (sb : StartBalances) (e : Entity) (ts : List Transaction) (t : Transaction)
    (d : JSDate) (m : Nat) (hcat : t.category = .INTERNAL) :
    dailyNet rates base (t :: ts) d = dailyNet rates base ts d ∧
    monthlyNet rates base (t :: ts) m = monthlyNet rates base ts m ∧
    monthlyInflow rates base (t :: ts) m = monthlyInflow rates base ts m ∧
    monthlyOutflow rates base (t :: ts) m = monthlyOutflow rates base ts m ∧
    finalRunningBal rates base sb e (t :: ts) =
      finalRunningBal rates base sb e ts +
        (if t.entity = e then convertT rates base t else 0) := by
  refine ⟨?_, ?_, ?_, ?_, ?_⟩
  · unfold dailyNet
    by_cases hd : t.date = d
    · simp [List.filter_cons, hd, hcat]
    · simp [List.filter_cons, hd]
  · unfold monthlyNet sortedByDate
    rw [foldl_add_eq_sum, foldl_add_eq_sum,
      sum_map_filter_mergeSort, sum_map_filter_mergeSort]
    simp [List.filter_cons, hcat]
  · unfold monthlyInflow sortedByDate
    rw [foldl_if_pos_eq_sum (fun x => 0 < convertT rates base x) (convertT rates base),
      foldl_if_pos_eq_sum (fun x => 0 < convertT rates base x) (convertT rates base),
      sum_map_filter_mergeSort, sum_map_filter_mergeSort]
    simp [List.filter_cons, hcat]
  · unfold monthlyOutflow sortedByDate
    rw [foldl_if_neg_eq_sum (fun x => 0 < convertT rates base x)
        (fun x => |convertT rates base x|),
      foldl_if_neg_eq_sum (fun x => 0 < convertT rates base x)
        (fun x => |convertT rates base x|),
      sum_map_filter_mergeSort, sum_map_filter_mergeSort]
    simp [List.filter_cons, hcat]
  · rw [finalRunningBal_eq_sum, finalRunningBal_eq_sum]
    by_cases he : t.entity = e
    · simp [List.filter_cons, he]
      ring
    · simp [List.filter_cons, he]

/-- Exchange rates used by concrete witnesses. -/
def ratesW : ExchangeRates :=
  ⟨92 / 100, 723 / 100⟩

/-- Starting balances used by concrete witnesses. -/
def sbW : StartBalances :=
  fun _ => ⟨50, 80, 10⟩

/-- An INTERNAL transfer used by concrete witnesses. -/
def tInternal : Transaction :=
  ⟨"ti", ⟨2024, 0, 5⟩, .PROPERTY, .INTERNAL, 1, 2, 3, .ACTUAL, none⟩

theorem internal_flow_exclusion_witness :
    dailyNet ratesW .RMB [tInternal] ⟨2024, 0, 5⟩ =
      dailyNet ratesW .RMB [] ⟨2024, 0, 5⟩ ∧
    monthlyNet ratesW .RMB [tInternal] 0 = monthlyNet ratesW .RMB [] 0 ∧
    monthlyInflow ratesW .RMB [tInternal] 0 = monthlyInflow ratesW .RMB [] 0 ∧
    monthlyOutflow ratesW .RMB [tInternal] 0 = monthlyOutflow ratesW .RMB [] 0 ∧
    finalRunningBal ratesW .RMB sbW .PROPERTY [tInternal] =
      finalRunningBal ratesW .RMB sbW .PROPERTY [] +
        (if tInternal.entity = .PROPERTY then convertT ratesW .RMB tInternal else 0) :=
  internal_flow_exclusion ratesW .RMB sbW .PROPERTY [] tInternal
    ⟨2024, 0, 5⟩ 0 rfl

/-- An ACTIVE instrument whose end date precedes its start date, used to
refute C8 as stated. -/
def debtRev : Debt :=
  ⟨"dr", .PROPERTY, .RMB, 5, 4, .SHIBOR, ⟨2025, 5, 1⟩, ⟨2024, 0, 1⟩,
    .QUARTERLY, .ACTIVE⟩

/-- C8 counterexample: the claim asserts that an instrument with
`endDate < startDate` still produces a draw event, but an ACTIVE instrument
produces none (the draw is only emitted for PLANNED status). -/
theorem degenerate_range_counterexample :
    debtRev.endDate.key < debtRev.startDate.key ∧
    ¬ ∃ e ∈ debtEvents cfgW nowW debtRev, e.id = "princ-in-" ++ debtRev.id := by
  constructor
  · decide
  · rintro ⟨e, he, hid⟩
    have hev : debtEvents cfgW nowW debtRev = [repaymentEvent cfgW debtRev] := by
      simp [debtEvents, interestEvents, interestLoop, debtRev, intervalMonths,
        JSDate.addMonths, JSDate.key, daysInMonth, isLeapYear]
    rw [hev] at he
    simp only [List.mem_singleton] at he
    subst he
    exact absurd hid (by decide)

/-- C8 (amended): an instrument with `endDate < startDate` raises no error
and produces zero interest events; it still produces the repayment event,
and the draw event exactly when its status is PLANNED. -/
theorem degenerate_range_amended (cfg : StressConfig) (now : JSDate)
    (debt : Debt) (hrev : debt.endDate.key < debt.startDate.key) :
    interestEvents cfg now debt = [] ∧
    debtEvents cfg now debt =
      (if debt.status = .PLANNED then [drawEvent cfg debt] else []) ++
        [repaymentEvent cfg debt] := by
  have hie : interestEvents cfg now debt = [] := by
    rcases Nat.eq_zero_or_pos (intervalMonths debt.frequency) with h0 | hpos
    · rw [interestEvents_eq_map, h0, steppedDates]
      simp
    · rw [interestEvents_eq_map, steppedDates]
      have hlt := key_lt_key_addMonths debt.startDate
        (intervalMonths debt.frequency) hpos
      have hguard : ¬ ((debt.startDate.addMonths
          (intervalMonths debt.frequency)).key ≤ debt.endDate.key) := by omega
      simp [hpos, hguard]
  refine ⟨hie, ?_⟩
  unfold debtEvents
  rw [hie]
  simp

theorem degenerate_range_amended_witness :
    interestEvents cfgW nowW debtRev = [] ∧
    debtEvents cfgW nowW debtRev =
      (if debtRev.status = .PLANNED then [drawEvent cfgW debtRev] else []) ++
        [repaymentEvent cfgW debtRev] :=
  degenerate_range_amended cfgW nowW debtRev (by decide)

end FundDemo
